import Mathlib

/-!
Verification of the data-cleaning pipeline in `src/data_processing.py`
(pandas-based household-survey cleaning).

Model: a pandas `DataFrame` is an association list of columns, each column a
name paired with a list of cells; a cell is either a present value (a rational
number or a string) or missing (`none`, modelling `NaN`).  Rational numbers
model both Python ints and floats (claims do not depend on float rounding).
Each Lean definition below mirrors one Python function statement by statement.
-/

/-- A present cell value: a number (Python int/float) or a string. -/
inductive Value where
  | num (q : ℚ)
  | str (s : String)
deriving DecidableEq

/-- A cell of a table: a present value, or missing (`NaN`). -/
abbrev Cell := Option Value

/-- A pandas DataFrame: ordered columns, each a name with its list of cells. -/
abbrev DataFrame := List (String × List Cell)

/-- The column-name list, `df.columns`. -/
def colNames (df : DataFrame) : List String := df.map (·.1)

/-- Number of rows, read off the first column (pandas keeps columns equal length). -/
def numRows (df : DataFrame) : Nat :=
  match df with
  | [] => 0
  | p :: _ => p.2.length

/-- Look a column up by name (`df[n]` when present). -/
def getCol (df : DataFrame) (n : String) : Option (List Cell) :=
  (df.find? (fun p => p.1 = n)).map (·.2)

/-- Column lookup defaulting to the empty column. -/
def getColD (df : DataFrame) (n : String) : List Cell :=
  (getCol df n).getD []

/-- Column assignment: replace the column in place when it exists, else append it,
as pandas column assignment does. -/
def setCol (df : DataFrame) (n : String) (c : List Cell) : DataFrame :=
  if df.any (fun p => p.1 = n) then
    df.map (fun p => if p.1 = n then (n, c) else p)
  else
    df ++ [(n, c)]

/-- Numeric view of a cell: `some q` when the cell holds a number. -/
def cellNum (c : Cell) : Option ℚ :=
  c.bind (fun v => match v with | .num q => some q | .str _ => none)

/-- Insert into a list kept sorted (ascending). -/
def insertSorted (x : ℚ) : List ℚ → List ℚ
  | [] => [x]
  | y :: ys => if x ≤ y then x :: y :: ys else y :: insertSorted x ys

/-- Insertion sort, ascending. -/
def sortQ : List ℚ → List ℚ
  | [] => []
  | x :: xs => insertSorted x (sortQ xs)

/-- Model of `Series.median()` over the present numeric values: `none` models the `NaN`
result on an empty selection; even-length lists average the two middle values. -/
def median (xs : List ℚ) : Option ℚ :=
  let s := sortQ xs
  if s.length = 0 then none
  else if s.length % 2 = 1 then s[s.length / 2]?
  else
    match s[s.length / 2 - 1]?, s[s.length / 2]? with
    | some a, some b => some ((a + b) / 2)
    | _, _ => none

/-- Model of `Series.fillna(v)`: fills missing cells when `v` is a present value; a
`NaN` fill value (`none`) leaves the column unchanged, as pandas does. -/
def fillna (col : List Cell) (v : Option Value) : List Cell :=
  match v with
  | none => col
  | some x => col.map (fun c => some (c.getD x))

/-- Digits-only parse of a natural number; `none` on empty or non-digit input. -/
def parseDigits : List Char → Option Nat
  | [] => none
  | cs =>
    if cs.all (fun ch => ch.isDigit) then
      some (cs.foldl (fun acc ch => acc * 10 + (ch.toNat - 48)) 0)
    else none

/-- Model of the string-to-number coercion performed by
`pd.to_numeric` with coerce errors on the integer-literal fragment:
optional leading minus then digits; anything else coerces to missing. -/
def parseNum (s : String) : Option ℚ :=
  match s.data with
  | '-' :: cs => (parseDigits cs).map (fun k => -(k : ℚ))
  | cs => (parseDigits cs).map (fun k => (k : ℚ))

/-- Numeric coercion of one cell: numbers pass through, strings are parsed,
missing stays missing. -/
def toNumCell (c : Cell) : Option ℚ :=
  c.bind (fun v => match v with | .num q => some q | .str s => parseNum s)

/-- Keep the rows whose mask entry is `true` (boolean-mask row selection). -/
def applyMask (mask : List Bool) (col : List Cell) : List Cell :=
  (col.zip mask).filterMap (fun p => if p.2 then some p.1 else none)

/-!
## `select_and_rename_cols(df, column_map)`

`column_map` is a Python dict, modelled as an association list in iteration
order.  The function keeps the map entries whose source column exists, fails
(`None`) when the frame is empty or no entry survives, and otherwise projects
those columns in map order under their new names.
-/

def select_and_rename_cols (df : DataFrame) (column_map : List (String × String)) :
    Option DataFrame :=
  if df = [] ∨ numRows df = 0 then none
  else
    let existing := column_map.filter (fun p => decide (p.1 ∈ colNames df))
    if existing = [] then none
    else some (existing.map (fun p => (p.2, getColD df p.1)))

/-!
## `filter_by_age(df, min_age, age_column)`

Coerces the age column to numbers (unparseable entries become missing),
writes the coerced column back, then keeps the rows whose age compares
`≥ min_age` (comparison with missing is false).  Returns `none` on an
empty frame and the original frame when the age column is absent.
-/

def filter_by_age (df : DataFrame) (min_age : ℚ) (age_column : String) :
    Option DataFrame :=
  if df = [] ∨ numRows df = 0 then none
  else if age_column ∈ colNames df then
    let coerced := (getColD df age_column).map toNumCell
    let df1 := setCol df age_column (coerced.map (fun o => o.map Value.num))
    let mask := coerced.map (fun o => match o with
      | some q => decide (min_age ≤ q)
      | none => false)
    some (df1.map (fun p => (p.1, applyMask mask p.2)))
  else some df

/-!
## `impute_missing_values(df, strategies)`

A strategy value is the string `'median'`, the string `'mode'`, any other
int/float/str used as a literal fill, or an unknown (non int/float/str)
value which is skipped.  The result pairs the final frame with
`imputed_cols_count`, the number of columns the code counts as imputed.
-/

/-- A value of the Python `strategies` dict: an int/float/str (`val`), or
anything else (`other`), which the code skips as an unknown strategy. -/
inductive Strategy where
  | val (v : Value)
  | other
deriving DecidableEq

/-- pandas numeric dtype test for a modelled column: no string cell present
(an all-missing column is float dtype, hence numeric). -/
def isNumericCol (col : List Cell) : Bool :=
  col.all (fun c => match c with
    | some (.str _) => false
    | _ => true)

/-- Model of `Series.mode()[0]`: a most frequent present value, `none` when the column
has no present value.  pandas breaks ties by sort order; ties are modelled by
first occurrence, which no claim relies on. -/
def mode (col : List Cell) : Option Value :=
  match col.filterMap id with
  | [] => none
  | v :: vs =>
    some ((v :: vs).foldl
      (fun best x => if (v :: vs).count x > (v :: vs).count best then x else best) v)

/-- Dispatch on one strategy: `none` models `continue` (the column is skipped
and not counted); `some fv` models reaching the `fillna` call with fill value
`fv` (`fv = none` is the `NaN` median of an all-missing numeric column, whose
`fillna` is a no-op but which is still counted). -/
def strategyValue (col : List Cell) : Strategy → Option (Option Value)
  | .val (.str s) =>
    if s = "median" then
      if isNumericCol col then some ((median (col.filterMap cellNum)).map Value.num)
      else none
    else if s = "mode" then
      match mode col with
      | none => none
      | some m => some (some m)
    else some (some (.str s))
  | .val v => some (some v)
  | .other => none

/-- One iteration of the strategies loop: skip absent columns and columns
with no missing value; otherwise fill per the strategy and count the column. -/
def imputeStep (acc : DataFrame × Nat) (cs : String × Strategy) : DataFrame × Nat :=
  match getCol acc.1 cs.1 with
  | none => acc
  | some col =>
    if col.any (fun c => c.isNone) then
      match strategyValue col cs.2 with
      | none => acc
      | some fv => (setCol acc.1 cs.1 (fillna col fv), acc.2 + 1)
    else acc

def impute_missing_values (df : DataFrame) (strategies : List (String × Strategy)) :
    Option (DataFrame × Nat) :=
  if df = [] ∨ numRows df = 0 then none
  else some (strategies.foldl imputeStep (df, 0))

/-!
## `impute_primary_income_smart(df, worked_col, income_col, worked_value, not_worked_value)`

Mirrors the Python statement by statement: guard on required columns; create
the `has_primary_income` flag from income presence; set income 0 where
work-status equals the not-worked label and income is missing; compute the
worker median with its fallback chain (overall median of the income column at
that point, else 0); set that median where work-status equals the worked label
and income is missing; finally fill any remaining missing income with 0.
-/

def impute_primary_income_smart (df : DataFrame) (worked_col income_col : String)
    (worked_value not_worked_value : Value) : DataFrame :=
  if income_col ∈ colNames df ∧ worked_col ∈ colNames df then
    let df1 := setCol df "has_primary_income"
      ((getColD df income_col).map (fun c => some (Value.num (if c.isSome then 1 else 0))))
    let income1 := List.zipWith
      (fun w i => if w = some not_worked_value ∧ i.isNone then some (Value.num 0) else i)
      (getColD df1 worked_col) (getColD df1 income_col)
    let df2 := setCol df1 income_col income1
    let workerIncomes := ((getColD df2 worked_col).zip (getColD df2 income_col)).filterMap
      (fun p => if p.1 = some worked_value ∧ p.2.isSome then cellNum p.2 else none)
    let m : ℚ := match median workerIncomes with
      | some q => q
      | none =>
        match median ((getColD df2 income_col).filterMap cellNum) with
        | some q => q
        | none => 0
    let income2 := List.zipWith
      (fun w i => if w = some worked_value ∧ i.isNone then some (Value.num m) else i)
      (getColD df2 worked_col) (getColD df2 income_col)
    let df3 := setCol df2 income_col income2
    let incomeF := if (getColD df3 income_col).any (fun c => c.isNone)
      then (getColD df3 income_col).map (fun c => some (c.getD (Value.num 0)))
      else getColD df3 income_col
    setCol df3 income_col incomeF
  else df

/-!
## `decode_categorical(df, column, mapping)`

Adds `column ++ "_mapped"` holding the dict lookup of each source cell
(missing source, or a present value absent from the mapping, yields missing);
returns the frame unchanged when the source column is absent.
-/

/-- Python `dict.get` / pandas `.map` lookup over the modelled mapping. -/
def lookupV (mapping : List (Value × Value)) (v : Value) : Option Value :=
  (mapping.find? (fun p => p.1 = v)).map (·.2)

def decode_categorical (df : DataFrame) (column : String)
    (mapping : List (Value × Value)) : DataFrame :=
  if column ∈ colNames df then
    setCol df (column ++ "_mapped")
      ((getColD df column).map (fun c => c.bind (lookupV mapping)))
  else df

/-- The value P5 prescribes for a worked row with missing income, computed
from the input columns: the median of the incomes present among worked rows;
when none exists, the documented fallback of section 4.6 step 4 — the median
over the income values present at that step of the algorithm, i.e. the
input's present incomes together with the zeros just imputed for not-worked
rows with missing income — and 0 when that too is undefined. -/
def specImputedWorkerIncome (worked income : List Cell) (wv nwv : Value) : ℚ :=
  match median ((worked.zip income).filterMap
      (fun p => if p.1 = some wv ∧ p.2.isSome then cellNum p.2 else none)) with
  | some q => q
  | none =>
    match median ((List.zipWith
        (fun w i => if w = some nwv ∧ i.isNone then some (Value.num 0) else i)
        worked income).filterMap cellNum) with
    | some q => q
    | none => 0

-- Basic lemmas about column access.

@[simp]
theorem getCol_nil (n : String) : getCol [] n = none := rfl

theorem getCol_isSome_of_mem {df : DataFrame} {n : String} (h : n ∈ colNames df) :
    (getCol df n).isSome := by
  induction df with
  | nil => simp [colNames] at h
  | cons p t ih =>
    simp only [colNames, List.map_cons, List.mem_cons] at h
    by_cases hp : p.1 = n
    · simp [getCol, List.find?_cons, hp]
    · rcases h with h | h
      · exact absurd h.symm hp
      · simpa [getCol, List.find?_cons, hp] using ih h

theorem getCol_setCol_self (df : DataFrame) (n : String) (c : List Cell) :
    getCol (setCol df n c) n = some c := by
  unfold setCol
  by_cases hmem : df.any (fun p => p.1 = n)
  · simp only [hmem, if_true]
    induction df with
    | nil => simp at hmem
    | cons p t ih =>
      by_cases hp : p.1 = n
      · simp [getCol, List.find?_cons, hp]
      · simp only [List.any_cons, hp, decide_eq_true_eq, Bool.false_or] at hmem
        simpa [getCol, List.find?_cons, hp] using ih hmem
  · simp only [hmem, if_false]
    induction df with
    | nil => simp [getCol, List.find?_cons]
    | cons p t ih =>
      simp only [List.any_cons, Bool.or_eq_true, decide_eq_true_eq, not_or] at hmem
      have := ih (by simpa using hmem.2)
      simpa [getCol, List.find?_cons, hmem.1] using this

theorem find?_map_replace (t : DataFrame) {n m : String} (c : List Cell) (h : m ≠ n) :
    (t.map (fun p => if p.1 = n then (n, c) else p)).find? (fun p => p.1 = m)
      = t.find? (fun p => p.1 = m) := by
  induction t with
  | nil => rfl
  | cons p t ih =>
    simp only [List.map_cons]
    by_cases hp : p.1 = n
    · rw [if_pos hp]
      have h1 : ¬ ((n : String) = m) := fun hnm => h hnm.symm
      have h2 : ¬ (p.1 = m) := fun hh => h ((hp ▸ hh : (n : String) = m)).symm
      simp [List.find?_cons, h1, h2, ih]
    · rw [if_neg hp]
      by_cases hm : p.1 = m
      · simp [List.find?_cons, hm]
      · simp [List.find?_cons, hm, ih]

theorem find?_append_single_ne (t : DataFrame) {n m : String} (c : List Cell) (h : m ≠ n) :
    (t ++ [(n, c)]).find? (fun p => p.1 = m) = t.find? (fun p => p.1 = m) := by
  induction t with
  | nil =>
    have h1 : ¬ ((n : String) = m) := fun hnm => h hnm.symm
    simp [List.find?_cons, h1]
  | cons p t ih =>
    by_cases hm : p.1 = m
    · simp [List.find?_cons, hm]
    · simp [List.find?_cons, hm, ih]

theorem getCol_setCol_ne (df : DataFrame) {n m : String} (c : List Cell) (h : m ≠ n) :
    getCol (setCol df n c) m = getCol df m := by
  unfold setCol getCol
  by_cases hmem : df.any (fun p => p.1 = n)
  · rw [if_pos hmem, find?_map_replace df c h]
  · rw [if_neg hmem, find?_append_single_ne df c h]

theorem getColD_setCol_self (df : DataFrame) (n : String) (c : List Cell) :
    getColD (setCol df n c) n = c := by
  simp [getColD, getCol_setCol_self]

theorem getColD_setCol_ne (df : DataFrame) {n m : String} (c : List Cell) (h : m ≠ n) :
    getColD (setCol df n c) m = getColD df m := by
  simp [getColD, getCol_setCol_ne df c h]

/-!
## Claim theorems
-/

/-- C9: when the work-status column or the income column is absent, the income
imputer returns the input table unchanged (no rows modified, no columns added
or removed). -/
theorem claim_C9_missing_column_unchanged (df : DataFrame)
    (worked_col income_col : String) (wv nwv : Value)
    (h : ¬ (income_col ∈ colNames df ∧ worked_col ∈ colNames df)) :
    impute_primary_income_smart df worked_col income_col wv nwv = df := by
  unfold impute_primary_income_smart
  rw [if_neg h]

/-- Witness for C9: a one-column table lacking the work-status column is
returned unchanged. -/
theorem claim_C9_witness :
    impute_primary_income_smart [("primary_job_income_monthly", [none])]
      "worked_last_7_days" "primary_job_income_monthly"
      (Value.str "Yes") (Value.str "No")
      = [("primary_job_income_monthly", [none])] :=
  claim_C9_missing_column_unchanged _ _ _ _ _ (by decide)

/-- C4 counterexample: with the renaming map `[("a", "b")]` on a table whose
only column is `a`, one selection yields the column list `[b]`, but selecting
again with the same map fails (returns no table): column selection is not
idempotent as claimed. -/
theorem claim_C4_counterexample :
    select_and_rename_cols [("a", [some (Value.num 1)])] [("a", "b")]
        = some [("b", [some (Value.num 1)])]
      ∧ select_and_rename_cols [("b", [some (Value.num 1)])] [("a", "b")] = none := by
  constructor
  · rfl
  · rfl

theorem length_getColD_of_mem {df : DataFrame} {k : String} (h : k ∈ colNames df)
    (hwf : ∀ p ∈ df, p.2.length = numRows df) :
    (getColD df k).length = numRows df := by
  have hs := getCol_isSome_of_mem h
  cases hfind : df.find? (fun p => p.1 = k) with
  | none =>
    unfold getCol at hs
    rw [hfind] at hs
    simp at hs
  | some pr =>
    have hmem := List.mem_of_find?_eq_some hfind
    have hcol : getColD df k = pr.2 := by simp [getColD, getCol, hfind]
    rw [hcol]
    exact hwf pr hmem

/-- C4 as amended: column selection is idempotent for maps that do not rename,
i.e. whose every entry has destination equal to source.  (With a renaming
entry the second application can fail, see the counterexample.)  For such a
map, if one selection returns a table, selecting again from that table
succeeds and yields the same column list. -/
theorem claim_C4_amended_idempotent (df : DataFrame)
    (column_map : List (String × String))
    (hid : ∀ p ∈ column_map, p.1 = p.2)
    (hwf : ∀ p ∈ df, p.2.length = numRows df)
    (out : DataFrame)
    (hout : select_and_rename_cols df column_map = some out) :
    ∃ out₂, select_and_rename_cols out column_map = some out₂
      ∧ colNames out₂ = colNames out := by
  unfold select_and_rename_cols at hout
  by_cases hg : df = [] ∨ numRows df = 0
  · rw [if_pos hg] at hout
    exact absurd hout (by simp)
  rw [if_neg hg] at hout
  dsimp only at hout
  set E := column_map.filter (fun p => decide (p.1 ∈ colNames df)) with hE
  by_cases hEn : E = []
  · rw [if_pos hEn] at hout
    exact absurd hout (by simp)
  rw [if_neg hEn] at hout
  have hout' : out = E.map (fun p => (p.2, getColD df p.1)) :=
    (Option.some_injective _ hout).symm
  have hcn : colNames out = E.map (fun p => p.1) := by
    rw [hout']
    simp only [colNames, List.map_map]
    apply List.map_congr_left
    intro p hp
    have hpm : p ∈ column_map := (List.mem_filter.mp hp).1
    exact (hid p hpm).symm
  have hrows : numRows df ≠ 0 := fun h0 => hg (Or.inr h0)
  have hone : out ≠ [] := by
    rw [hout']
    cases hEc : E with
    | nil => exact absurd hEc hEn
    | cons e t => simp
  have hnum : numRows out ≠ 0 := by
    rw [hout']
    cases hEc : E with
    | nil => exact absurd hEc hEn
    | cons e t =>
      have he : e ∈ E := hEc ▸ List.mem_cons_self e t
      have he1 : e.1 ∈ colNames df := by
        have := (List.mem_filter.mp he).2
        simpa using this
      have hlen := length_getColD_of_mem he1 hwf
      simp only [List.map_cons, numRows]
      rw [hlen]
      exact hrows
  have hguard2 : ¬ (out = [] ∨ numRows out = 0) := by
    rintro (h | h)
    · exact hone h
    · exact hnum h
  have hE' : column_map.filter (fun p => decide (p.1 ∈ colNames out)) = E := by
    rw [hE]
    apply List.filter_congr
    intro p hp
    simp only [decide_eq_decide]
    rw [hcn]
    constructor
    · intro hmem
      obtain ⟨q, hq, hq1⟩ := List.mem_map.mp hmem
      have := (List.mem_filter.mp hq).2
      simp only [decide_eq_true_eq] at this
      exact hq1 ▸ this
    · intro hmem
      exact List.mem_map.mpr ⟨p, List.mem_filter.mpr ⟨hp, by simpa⟩, rfl⟩
  refine ⟨E.map (fun p => (p.2, getColD out p.1)), ?_, ?_⟩
  · unfold select_and_rename_cols
    rw [if_neg hguard2]
    dsimp only
    rw [hE', if_neg hEn]
  · rw [hout']
    simp [colNames, List.map_map, Function.comp]

/-- Witness for the amended C4 at a concrete identity map. -/
theorem claim_C4_amended_witness :
    ∃ out₂, select_and_rename_cols [("age", [some (Value.num 1)])] [("age", "age")]
        = some out₂
      ∧ colNames out₂ = colNames [("age", [some (Value.num 1)])] := by
  have h := claim_C4_amended_idempotent [("age", [some (Value.num 1)])]
    [("age", "age")] (by decide) (by decide)
    [("age", [some (Value.num 1)])] (by rfl)
  simpa using h

/-- C6: with a non-empty table and a non-empty intersection between the map's
source names and the table's columns, selection succeeds and the output column
list is exactly the destination names of the map entries whose source exists,
in map iteration order; membership in the output columns is equivalent to
being the destination of some map entry whose source column exists. -/
theorem claim_C6_selection_exact (df : DataFrame)
    (column_map : List (String × String))
    (h1 : ¬ (df = [] ∨ numRows df = 0))
    (h2 : column_map.filter (fun p => decide (p.1 ∈ colNames df)) ≠ []) :
    ∃ out, select_and_rename_cols df column_map = some out
      ∧ colNames out
          = (column_map.filter (fun p => decide (p.1 ∈ colNames df))).map (fun p => p.2)
      ∧ ∀ n, n ∈ colNames out
          ↔ ∃ p ∈ column_map, p.1 ∈ colNames df ∧ p.2 = n := by
  refine ⟨(column_map.filter (fun p => decide (p.1 ∈ colNames df))).map
    (fun p => (p.2, getColD df p.1)), ?_, ?_, ?_⟩
  · unfold select_and_rename_cols
    rw [if_neg h1]
    dsimp only
    rw [if_neg h2]
  · simp [colNames, List.map_map]
  · intro n
    simp only [colNames, List.map_map, List.mem_map, List.mem_filter,
      Function.comp, decide_eq_true_eq]
    constructor
    · rintro ⟨p, ⟨hp, hmem⟩, hn⟩
      exact ⟨p, hp, hmem, hn⟩
    · rintro ⟨p, hp, hmem, hn⟩
      exact ⟨p, ⟨hp, hmem⟩, hn⟩

/-- Witness for C6 at a concrete table and map. -/
theorem claim_C6_witness :
    ∃ out, select_and_rename_cols
        [("hhid", [some (Value.num 7)]), ("s1aq4y", [some (Value.num 30)])]
        [("hhid", "household_id"), ("zzz", "gone"), ("s1aq4y", "age")] = some out
      ∧ colNames out
          = ([("hhid", "household_id"), ("zzz", "gone"), ("s1aq4y", "age")].filter
              (fun p => decide (p.1 ∈ colNames
                [("hhid", [some (Value.num 7)]), ("s1aq4y", [some (Value.num 30)])]))).map
            (fun p => p.2)
      ∧ ∀ n, n ∈ colNames out
          ↔ ∃ p ∈ [("hhid", "household_id"), ("zzz", "gone"), ("s1aq4y", "age")],
              p.1 ∈ colNames
                [("hhid", [some (Value.num 7)]), ("s1aq4y", [some (Value.num 30)])]
              ∧ p.2 = n :=
  claim_C6_selection_exact _ _ (by decide) (by decide)

theorem getCol_map_snd (df : DataFrame) (g : List Cell → List Cell) (n : String) :
    getCol (df.map (fun p => (p.1, g p.2))) n = (getCol df n).map g := by
  induction df with
  | nil => rfl
  | cons p t ih =>
    by_cases hp : p.1 = n
    · simp [getCol, List.find?_cons, hp]
    · simpa [getCol, List.find?_cons, hp] using ih

/-- C3: on a non-empty table containing the age column, the age filter
succeeds, and every cell of the output age column is a present numeric value
at least the minimum age; rows whose age was missing or unparseable carry no
cell into the output age column. -/
theorem claim_C3_age_filter_postcondition (df : DataFrame) (min_age : ℚ)
    (age_column : String)
    (h1 : ¬ (df = [] ∨ numRows df = 0))
    (h2 : age_column ∈ colNames df) :
    ∃ out, filter_by_age df min_age age_column = some out
      ∧ ∀ c ∈ getColD out age_column, ∃ q, c = some (Value.num q) ∧ min_age ≤ q := by
  unfold filter_by_age
  rw [if_neg h1, if_pos h2]
  dsimp only
  refine ⟨_, rfl, ?_⟩
  intro c hc
  rw [getColD] at hc
  rw [getCol_map_snd] at hc
  have hget : getCol (setCol df age_column
      (((getColD df age_column).map toNumCell).map (fun o => o.map Value.num)))
      age_column
      = some (((getColD df age_column).map toNumCell).map (fun o => o.map Value.num)) :=
    getCol_setCol_self _ _ _
  rw [hget] at hc
  simp only [Option.map_some', Option.getD_some] at hc
  unfold applyMask at hc
  rw [List.zip_map'] at hc
  rw [List.filterMap_map] at hc
  obtain ⟨o, _, ho⟩ := List.mem_filterMap.mp hc
  simp only [Function.comp] at ho
  cases o with
  | none => simp at ho
  | some q =>
    by_cases hq : min_age ≤ q
    · refine ⟨q, ?_, hq⟩
      simp only [hq, decide_True, if_true, Option.map_some'] at ho
      exact Option.some_injective _ ho.symm
    · simp [hq] at ho

/-- Witness for C3: ages `[14, 25, missing, "abc"]` with threshold 15 keep
only the numeric age 25. -/
theorem claim_C3_witness :
    ∃ out, filter_by_age
        [("age", [some (Value.num 14), some (Value.num 25), none,
          some (Value.str "abc")])] 15 "age" = some out
      ∧ ∀ c ∈ getColD out "age", ∃ q, c = some (Value.num q) ∧ 15 ≤ q :=
  claim_C3_age_filter_postcondition _ _ _ (by decide) (by decide)

theorem ne_append_mapped (s : String) : s ≠ s ++ "_mapped" := by
  intro h
  have hl := congrArg String.length h
  rw [String.length_append] at hl
  have h7 : ("_mapped" : String).length = 7 := by decide
  omega

/-- C8: with the source column present, the decoder leaves every column other
than `<column>_mapped` (in particular the source column, whose name can never
be `<column>_mapped`) unchanged, stores in `<column>_mapped` the lookup of
each source cell with unchanged length (row count preserved), and a looked-up
cell is missing exactly when the source cell is missing or holds a value
absent from the mapping. -/
theorem claim_C8_decoder_additive (df : DataFrame) (column : String)
    (mapping : List (Value × Value))
    (h : column ∈ colNames df) :
    getCol (decode_categorical df column mapping) column = getCol df column
      ∧ (∀ n, n ≠ column ++ "_mapped" →
          getCol (decode_categorical df column mapping) n = getCol df n)
      ∧ getCol (decode_categorical df column mapping) (column ++ "_mapped")
          = some ((getColD df column).map (fun c => c.bind (lookupV mapping)))
      ∧ ((getColD df column).map (fun c => c.bind (lookupV mapping))).length
          = (getColD df column).length
      ∧ ∀ c : Cell, c.bind (lookupV mapping) = none
          ↔ (c = none ∨ ∃ v, c = some v ∧ lookupV mapping v = none) := by
  unfold decode_categorical
  rw [if_pos h]
  refine ⟨?_, ?_, ?_, ?_, ?_⟩
  · exact getCol_setCol_ne df _ (ne_append_mapped column)
  · intro n hn
    exact getCol_setCol_ne df _ hn
  · exact getCol_setCol_self df _ _
  · exact List.length_map _ _
  · intro c
    cases c with
    | none => simp
    | some v => simp

/-- Witness for C8: region code 99 absent from the mapping decodes to a
missing cell, code 1 decodes to its label, the source column survives. -/
theorem claim_C8_witness :
    getCol (decode_categorical
        [("region", [some (Value.num 1), some (Value.num 99), none])] "region"
        [(Value.num 1, Value.str "Western")]) "region"
      = getCol [("region", [some (Value.num 1), some (Value.num 99), none])] "region"
    ∧ (∀ n, n ≠ "region" ++ "_mapped" →
        getCol (decode_categorical
          [("region", [some (Value.num 1), some (Value.num 99), none])] "region"
          [(Value.num 1, Value.str "Western")]) n
        = getCol [("region", [some (Value.num 1), some (Value.num 99), none])] n)
    ∧ getCol (decode_categorical
        [("region", [some (Value.num 1), some (Value.num 99), none])] "region"
        [(Value.num 1, Value.str "Western")]) ("region" ++ "_mapped")
      = some ((getColD [("region", [some (Value.num 1), some (Value.num 99), none])]
          "region").map (fun c => c.bind (lookupV [(Value.num 1, Value.str "Western")])))
    ∧ ((getColD [("region", [some (Value.num 1), some (Value.num 99), none])]
          "region").map (fun c => c.bind (lookupV [(Value.num 1, Value.str "Western")]))).length
      = (getColD [("region", [some (Value.num 1), some (Value.num 99), none])]
          "region").length
    ∧ ∀ c : Cell, c.bind (lookupV [(Value.num 1, Value.str "Western")]) = none
        ↔ (c = none ∨ ∃ v, c = some v
            ∧ lookupV [(Value.num 1, Value.str "Western")] v = none) :=
  claim_C8_decoder_additive _ _ _ (by decide)

theorem isNumericCol_of_all_none {col : List Cell} (h : col.all (fun x => x.isNone)) :
    isNumericCol col = true := by
  unfold isNumericCol
  rw [List.all_eq_true] at h ⊢
  intro x hx
  have hxn := h x hx
  cases x with
  | none => rfl
  | some v => simp at hxn

theorem filterMap_cellNum_of_all_none {col : List Cell}
    (h : col.all (fun x => x.isNone)) : col.filterMap cellNum = [] := by
  rw [List.filterMap_eq_nil_iff]
  intro a ha
  have han := (List.all_eq_true.mp h) a ha
  cases a with
  | none => rfl
  | some v => simp at han

/-- C5 counterexample: a numeric column that is entirely missing, under the
`'median'` strategy, is not skipped: the code computes a `NaN` median, the
`fillna` is a no-op, the missing values remain, and the column is still
counted as imputed (`imputed_cols_count = 1`), contradicting the claim that
such a column is skipped and not counted. -/
theorem claim_C5_counterexample :
    impute_missing_values [("grade_completed", [none, none])]
        [("grade_completed", Strategy.val (Value.str "median"))]
      = some ([("grade_completed", [none, none])], 1) := by
  rfl

/-- C5 as amended: for a numeric column with missing values but no computable
median (all values missing), the generic imputer leaves the column's cells
unchanged — the missing values remain — but it does not skip the column: the
`NaN` median reaches the (no-op) `fillna` and the column is counted among the
successfully imputed columns. -/
theorem claim_C5_amended_counted_noop (df : DataFrame) (c : String)
    (col : List Cell)
    (h1 : ¬ (df = [] ∨ numRows df = 0))
    (hcol : getCol df c = some col)
    (hmiss : col.any (fun x => x.isNone))
    (hall : col.all (fun x => x.isNone)) :
    impute_missing_values df [(c, Strategy.val (Value.str "median"))]
        = some (setCol df c col, 1)
      ∧ getCol (setCol df c col) c = some col := by
  constructor
  · unfold impute_missing_values
    rw [if_neg h1]
    simp only [List.foldl_cons, List.foldl_nil]
    unfold imputeStep
    rw [hcol]
    dsimp only
    rw [if_pos hmiss]
    unfold strategyValue
    dsimp only
    rw [if_pos rfl, if_pos (isNumericCol_of_all_none hall),
      filterMap_cellNum_of_all_none hall]
    rfl
  · exact getCol_setCol_self df c col

/-- Witness for the amended C5 at the concrete all-missing column. -/
theorem claim_C5_amended_witness :
    impute_missing_values [("grade_completed", [none, none])]
        [("grade_completed", Strategy.val (Value.str "median"))]
      = some (setCol [("grade_completed", [none, none])] "grade_completed"
          [none, none], 1)
    ∧ getCol (setCol [("grade_completed", [none, none])] "grade_completed"
        [none, none]) "grade_completed" = some [none, none] :=
  claim_C5_amended_counted_noop _ _ _ (by decide) (by rfl) (by decide) (by decide)

/-- C10: any literal string strategy other than `'median'` and `'mode'` fills
the column's missing cells verbatim with that string and the column counts as
imputed, while a strategy value that is not an int, float or string is
skipped as unknown (column untouched, not counted). -/
theorem claim_C10_literal_string_fill (df : DataFrame) (c : String)
    (col : List Cell) (s : String)
    (h1 : ¬ (df = [] ∨ numRows df = 0))
    (hcol : getCol df c = some col)
    (hmiss : col.any (fun x => x.isNone))
    (hs1 : s ≠ "median") (hs2 : s ≠ "mode") :
    impute_missing_values df [(c, Strategy.val (Value.str s))]
        = some (setCol df c (col.map (fun x => some (x.getD (Value.str s)))), 1)
      ∧ impute_missing_values df [(c, Strategy.other)] = some (df, 0) := by
  constructor
  · unfold impute_missing_values
    rw [if_neg h1]
    simp only [List.foldl_cons, List.foldl_nil]
    unfold imputeStep
    rw [hcol]
    dsimp only
    rw [if_pos hmiss]
    unfold strategyValue
    dsimp only
    rw [if_neg hs1, if_neg hs2]
    rfl
  · unfold impute_missing_values
    rw [if_neg h1]
    simp only [List.foldl_cons, List.foldl_nil]
    unfold imputeStep
    rw [hcol]
    dsimp only
    rw [if_pos hmiss]
    unfold strategyValue
    dsimp only

/-- Witness for C10: the literal `"Unknown"` fills missing cells verbatim and
is counted; the unknown strategy is skipped. -/
theorem claim_C10_witness :
    impute_missing_values [("c", [none, some (Value.str "x")])]
        [("c", Strategy.val (Value.str "Unknown"))]
      = some (setCol [("c", [none, some (Value.str "x")])] "c"
          ([none, some (Value.str "x")].map
            (fun x => some (x.getD (Value.str "Unknown")))), 1)
    ∧ impute_missing_values [("c", [none, some (Value.str "x")])]
        [("c", Strategy.other)]
      = some ([("c", [none, some (Value.str "x")])], 0) :=
  claim_C10_literal_string_fill _ _ _ _ (by decide) (by rfl) (by decide)
    (by decide) (by decide)

theorem getColD_setCol_ne' {n m : String} (h : m ≠ n) (df : DataFrame)
    (c : List Cell) : getColD (setCol df n c) m = getColD df m :=
  getColD_setCol_ne df c h

theorem forall_isSome_fillZero (col : List Cell) :
    ∀ c ∈ (if col.any (fun x => x.isNone)
        then col.map (fun x => some (x.getD (Value.num 0))) else col),
      c.isSome := by
  by_cases h : col.any (fun x => x.isNone)
  · rw [if_pos h]
    intro c hc
    obtain ⟨x, _, hx⟩ := List.mem_map.mp hc
    rw [← hx]
    rfl
  · rw [if_neg h]
    intro c hc
    cases c with
    | some v => rfl
    | none => exact absurd (List.any_eq_true.mpr ⟨none, hc, rfl⟩) h

/-- C1: whenever both required columns are present, every cell of the income
column after smart imputation is present (no missing value remains),
whatever the work-status values are. -/
theorem claim_C1_income_totality (df : DataFrame) (worked_col income_col : String)
    (wv nwv : Value)
    (hguard : income_col ∈ colNames df ∧ worked_col ∈ colNames df) :
    ∀ c ∈ getColD (impute_primary_income_smart df worked_col income_col wv nwv)
        income_col, c.isSome := by
  unfold impute_primary_income_smart
  rw [if_pos hguard]
  dsimp only
  rw [getColD_setCol_self]
  exact forall_isSome_fillZero _

/-- Witness for C1: a table whose work status is partly missing and partly
non-conforming still ends with a fully present income column. -/
theorem claim_C1_witness :
    (getColD (impute_primary_income_smart
        [("worked_last_7_days", [some (Value.str "Yes"), none, some (Value.num 3)]),
         ("primary_job_income_monthly", [none, none, none])]
        "worked_last_7_days" "primary_job_income_monthly"
        (Value.str "Yes") (Value.str "No")) "primary_job_income_monthly").all
      (fun c => c.isSome) = true :=
  List.all_eq_true.mpr
    (fun c hc => claim_C1_income_totality _ _ _ _ _ (by decide) c hc)

/-- C7: with both required columns present and the income column not itself
named `has_primary_income`, the flag column equals the presence indicator of
the input income column: 1 exactly where income was present before any
imputation, 0 elsewhere. -/
theorem claim_C7_presence_flag (df : DataFrame) (worked_col income_col : String)
    (wv nwv : Value)
    (hguard : income_col ∈ colNames df ∧ worked_col ∈ colNames df)
    (hi : income_col ≠ "has_primary_income") :
    getColD (impute_primary_income_smart df worked_col income_col wv nwv)
        "has_primary_income"
      = (getColD df income_col).map
          (fun c => some (Value.num (if c.isSome then 1 else 0)))
    ∧ ∀ (i : ℕ) (c : Cell), (getColD df income_col)[i]? = some c →
        (getColD (impute_primary_income_smart df worked_col income_col wv nwv)
          "has_primary_income")[i]?
          = some (some (Value.num (if c.isSome then 1 else 0))) := by
  have h1 : getColD (impute_primary_income_smart df worked_col income_col wv nwv)
      "has_primary_income"
      = (getColD df income_col).map
          (fun c => some (Value.num (if c.isSome then 1 else 0))) := by
    unfold impute_primary_income_smart
    rw [if_pos hguard]
    dsimp only
    simp only [getColD_setCol_ne' (Ne.symm hi)]
    rw [getColD_setCol_self]
  refine ⟨h1, ?_⟩
  intro i c hic
  rw [h1, List.getElem?_map, hic]
  rfl

/-- Witness for C7 on a concrete table: flag `[1, 0, 0, 1]` from incomes
`[1000, missing, missing, 500]`. -/
theorem claim_C7_witness :
    getColD (impute_primary_income_smart
        [("worked_last_7_days", [some (Value.str "Yes"), some (Value.str "Yes"),
          some (Value.str "No"), some (Value.str "Yes")]),
         ("primary_job_income_monthly", [some (Value.num 1000), none, none,
          some (Value.num 500)])]
        "worked_last_7_days" "primary_job_income_monthly"
        (Value.str "Yes") (Value.str "No")) "has_primary_income"
      = (getColD
        [("worked_last_7_days", [some (Value.str "Yes"), some (Value.str "Yes"),
          some (Value.str "No"), some (Value.str "Yes")]),
         ("primary_job_income_monthly", [some (Value.num 1000), none, none,
          some (Value.num 500)])]
        "primary_job_income_monthly").map
          (fun c => some (Value.num (if c.isSome then 1 else 0)))
    ∧ ∀ (i : ℕ) (c : Cell), (getColD
        [("worked_last_7_days", [some (Value.str "Yes"), some (Value.str "Yes"),
          some (Value.str "No"), some (Value.str "Yes")]),
         ("primary_job_income_monthly", [some (Value.num 1000), none, none,
          some (Value.num 500)])]
        "primary_job_income_monthly")[i]? = some c →
        (getColD (impute_primary_income_smart
          [("worked_last_7_days", [some (Value.str "Yes"), some (Value.str "Yes"),
            some (Value.str "No"), some (Value.str "Yes")]),
           ("primary_job_income_monthly", [some (Value.num 1000), none, none,
            some (Value.num 500)])]
          "worked_last_7_days" "primary_job_income_monthly"
          (Value.str "Yes") (Value.str "No")) "has_primary_income")[i]?
          = some (some (Value.num (if c.isSome then 1 else 0))) :=
  claim_C7_presence_flag _ _ _ _ _ (by decide) (by decide)

theorem getElem?_fillzero_of_some {col : List Cell} {i : ℕ} {v : Value}
    (h : col[i]? = some (some v)) :
    (if col.any (fun x => x.isNone)
      then col.map (fun x => some (x.getD (Value.num 0))) else col)[i]?
      = some (some v) := by
  by_cases hany : col.any (fun x => x.isNone)
  · rw [if_pos hany, List.getElem?_map, h]
    rfl
  · rw [if_neg hany]
    exact h

theorem filterMap_workers_zip_eq (worked income : List Cell) (wv nwv : Value)
    (hv : wv ≠ nwv) :
    (worked.zip (List.zipWith
        (fun w i => if w = some nwv ∧ i.isNone then some (Value.num 0) else i)
        worked income)).filterMap
      (fun p => if p.1 = some wv ∧ p.2.isSome then cellNum p.2 else none)
    = (worked.zip income).filterMap
      (fun p => if p.1 = some wv ∧ p.2.isSome then cellNum p.2 else none) := by
  induction worked generalizing income with
  | nil => rfl
  | cons w ws ih =>
    cases income with
    | nil => rfl
    | cons x xs =>
      have hhead :
          (if w = some wv
              ∧ (if w = some nwv ∧ x.isNone then some (Value.num 0) else x).isSome
            then cellNum (if w = some nwv ∧ x.isNone then some (Value.num 0) else x)
            else none)
          = (if w = some wv ∧ x.isSome then cellNum x else none) := by
        by_cases hp : w = some wv
        · have hnp : ¬ (w = some nwv ∧ x.isNone) := by
            rintro ⟨hww, _⟩
            rw [hp] at hww
            exact hv (Option.some_injective _ hww)
          rw [if_neg hnp]
        · rw [if_neg (fun hh => hp hh.1), if_neg (fun hh => hp hh.1)]
      simp only [List.zipWith_cons_cons, List.zip_cons_cons, List.filterMap_cons,
        hhead, ih xs]

/-- C2: with both required columns present, distinct, neither named
`has_primary_income`, and distinct worked/not-worked labels: a row whose
work-status is the not-worked label and whose income was missing ends with
income 0, and a row whose work-status is the worked label and whose income
was missing ends with income `specImputedWorkerIncome` — the median of the
input's present worked incomes, with the documented fallback chain. -/
theorem claim_C2_income_imputation_rules (df : DataFrame)
    (worked_col income_col : String) (wv nwv : Value)
    (hguard : income_col ∈ colNames df ∧ worked_col ∈ colNames df)
    (hwc : worked_col ≠ income_col)
    (hw : worked_col ≠ "has_primary_income")
    (hi : income_col ≠ "has_primary_income")
    (hv : wv ≠ nwv) :
    ∀ (i : ℕ) (w : Cell), (getColD df worked_col)[i]? = some w →
      (getColD df income_col)[i]? = some none →
      ((w = some nwv →
        (getColD (impute_primary_income_smart df worked_col income_col wv nwv)
          income_col)[i]? = some (some (Value.num 0)))
      ∧ (w = some wv →
        (getColD (impute_primary_income_smart df worked_col income_col wv nwv)
          income_col)[i]?
          = some (some (Value.num (specImputedWorkerIncome
              (getColD df worked_col) (getColD df income_col) wv nwv))))) := by
  intro i w hWi hIi
  unfold impute_primary_income_smart
  rw [if_pos hguard]
  dsimp only
  simp only [getColD_setCol_ne' hw, getColD_setCol_ne' hi, getColD_setCol_ne' hwc,
    getColD_setCol_self]
  constructor
  · intro hwv
    subst hwv
    apply getElem?_fillzero_of_some
    have h1 : (List.zipWith
        (fun w i => if w = some nwv ∧ i.isNone then some (Value.num 0) else i)
        (getColD df worked_col) (getColD df income_col))[i]?
        = some (some (Value.num 0)) := by
      rw [List.getElem?_zipWith, hWi, hIi]
      simp
    rw [List.getElem?_zipWith, hWi, h1]
    simp
  · intro hwv
    subst hwv
    apply getElem?_fillzero_of_some
    have h1 : (List.zipWith
        (fun w i => if w = some nwv ∧ i.isNone then some (Value.num 0) else i)
        (getColD df worked_col) (getColD df income_col))[i]?
        = some (none : Cell) := by
      rw [List.getElem?_zipWith, hWi, hIi]
      simp [hv]
    rw [List.getElem?_zipWith, hWi, h1]
    dsimp only
    rw [if_pos (⟨rfl, rfl⟩ : (some wv : Cell) = some wv ∧ (none : Cell).isNone = true)]
    unfold specImputedWorkerIncome
    rw [filterMap_workers_zip_eq _ _ _ _ hv]

/-- Witness for C2, a Scenario-C-style table: incomes
`[1000, missing, missing, 500, 600]` with work status `[Yes, Yes, No, Yes,
Yes]` — the worked row with missing income gets the worked median 600, the
not-worked row with missing income gets 0. -/
theorem claim_C2_witness :
    (getColD (impute_primary_income_smart
        [("worked_last_7_days", [some (Value.str "Yes"), some (Value.str "Yes"),
          some (Value.str "No"), some (Value.str "Yes"), some (Value.str "Yes")]),
         ("primary_job_income_monthly", [some (Value.num 1000), none, none,
          some (Value.num 500), some (Value.num 600)])]
        "worked_last_7_days" "primary_job_income_monthly"
        (Value.str "Yes") (Value.str "No")) "primary_job_income_monthly")[1]?
      = some (some (Value.num 600))
    ∧ (getColD (impute_primary_income_smart
        [("worked_last_7_days", [some (Value.str "Yes"), some (Value.str "Yes"),
          some (Value.str "No"), some (Value.str "Yes"), some (Value.str "Yes")]),
         ("primary_job_income_monthly", [some (Value.num 1000), none, none,
          some (Value.num 500), some (Value.num 600)])]
        "worked_last_7_days" "primary_job_income_monthly"
        (Value.str "Yes") (Value.str "No")) "primary_job_income_monthly")[2]?
      = some (some (Value.num 0)) := by
  have h := claim_C2_income_imputation_rules
    [("worked_last_7_days", [some (Value.str "Yes"), some (Value.str "Yes"),
      some (Value.str "No"), some (Value.str "Yes"), some (Value.str "Yes")]),
     ("primary_job_income_monthly", [some (Value.num 1000), none, none,
      some (Value.num 500), some (Value.num 600)])]
    "worked_last_7_days" "primary_job_income_monthly"
    (Value.str "Yes") (Value.str "No")
    (by decide) (by decide) (by decide) (by decide) (by decide)
  constructor
  · have hb := (h 1 (some (Value.str "Yes")) (by rfl) (by rfl)).2 rfl
    rw [hb]
    decide
  · exact (h 2 (some (Value.str "No")) (by rfl) (by rfl)).1 rfl
